import Mathlib

/-!
# mini-shell: the command evaluator of `src/cmd.c`

A shallow embedding of `cmd.c` (shell_cd, shell_exit, shell_pwd, parse_simple,
run_in_parallel, run_on_pipe, parse_command) over an explicit model of the
process state and of the operating system, followed by theorems about the
evaluator.

Conventions of the embedding
* A C function that runs in a process is a function `World → Outcome α`: it either
  returns a value to its caller, or the process it runs in ends (through `exit`,
  through `DIE`, or because `execvp` replaced the program image).
* Everything the operating system decides (whether `fork`, `open`, `chdir`,
  `getcwd` succeed, what an executed program does, whether a child is killed by a
  signal) is read from a parameter `os : OS`; theorems quantify over it.
* The per-process state is the descriptor table, the environment, the working
  directory and the table of children; system calls are logged in `trace`, which is
  shared by all processes (a child's log is kept when the parent goes on).
* The buffer of the stdio stream `stdout` is part of the process state: `printf`
  appends to it, and it is written to whatever descriptor 1 then refers to by
  `fflush(stdout)`, by `exit`, and by `printf` itself when the stream is line buffered
  and the text ends in a newline. The stream `stderr` is unbuffered.
* A forked child is run to its end at the point of the `fork`; interleavings of
  concurrently running children and the bytes flowing through a pipe are not
  modelled.
* C `bool` is the `_Bool` of `<stdbool.h>`: converting an integer to it gives 0 or 1.
-/

namespace MiniShell

/-! ## The command tree (declared in the parser's header) -/

/-- Modelled from the spec: `word_t` of the parser header, which is not among the
sources. A word is a chain of fragments linked by `next_part`; a fragment is literal
text or, when `expand` is set, the name of an environment variable. Words of a
parameter list are linked by `next_word`. -/
inductive word_t where
  | mk (string : String) (expand : Bool) (next_part : Option word_t)
      (next_word : Option word_t)

/-- Field `string` of a word. -/
def word_t.string : word_t → String
  | .mk s _ _ _ => s

/-- Field `expand` of a word. -/
def word_t.expand : word_t → Bool
  | .mk _ e _ _ => e

/-- Field `next_part` of a word. -/
def word_t.next_part : word_t → Option word_t
  | .mk _ _ p _ => p

/-- Field `next_word` of a word. -/
def word_t.next_word : word_t → Option word_t
  | .mk _ _ _ n => n

/-- Modelled from the spec: `simple_command_t` of the parser header: a verb, the
parameters, the three optional redirect targets and the append flags. The field `in`
is spelled `in_`. -/
structure simple_command_t where
  verb : word_t
  params : Option word_t
  in_ : Option word_t
  out : Option word_t
  err : Option word_t
  io_flags : Nat

/-- Modelled from the spec: the operator tags of the parser header other than
`OP_NONE` (which marks a leaf); `OP_DUMMY` stands for any tag the switch of
`parse_command` does not know. -/
inductive operator_t where
  | OP_SEQUENTIAL
  | OP_PARALLEL
  | OP_CONDITIONAL_ZERO
  | OP_CONDITIONAL_NZERO
  | OP_PIPE
  | OP_DUMMY
deriving DecidableEq, Repr

/-- Modelled from the spec: `command_t` of the parser header as a tagged union:
`leaf scmd` is a node with `op == OP_NONE`, `node op cmd1 cmd2` an operator node
whose two children are never null. -/
inductive command_t where
  | leaf (scmd : simple_command_t)
  | node (op : operator_t) (cmd1 cmd2 : command_t)

/-- Modelled from the spec: the constants of `cmd.h` and of the parser header that
`cmd.c` uses and that are not among the sources: the termination sentinel and the
two append bits of `io_flags`. -/
structure Consts where
  SHELL_EXIT : Int
  IO_OUT_APPEND : Nat
  IO_ERR_APPEND : Nat

/-! ## The process and operating-system model -/

/-- Status a `waitpid` reports: the child called `exit` (or returned from `main`)
with a code, or it was ended by a signal. -/
inductive wait_status where
  | exited (code : Nat)
  | signaled (sig : Nat)
deriving DecidableEq, Repr

/-- `WIFEXITED` of `<sys/wait.h>`. -/
def WIFEXITED : wait_status → Bool
  | .exited _ => true
  | .signaled _ => false

/-- `WEXITSTATUS` of `<sys/wait.h>`: the low eight bits of the exit code. -/
def WEXITSTATUS : wait_status → Int
  | .exited code => ((code % 256 : Nat) : Int)
  | .signaled _ => 0

/-- How `open` was asked to open a file: `O_WRONLY | O_CREAT | O_TRUNC`,
`O_WRONLY | O_CREAT | O_APPEND`, or `O_RDONLY`. -/
inductive oflag_t where
  | TRUNC
  | APPEND
  | RDONLY
deriving DecidableEq, Repr

/-- What a descriptor refers to: a stream the shell process started with
(`inherited n` is what descriptor `n` referred to at start), the open file
description made by the `serial`-th logged system call being an `open` of `path`, or
one end of a pipe. -/
inductive file_t where
  | inherited (n : Nat)
  | opened (path : String) (mode : oflag_t) (serial : Nat)
  | pipe_end (write : Bool) (serial : Nat)
deriving DecidableEq, Repr

/-- Logged system calls. `enter` is a ghost event: it marks that `parse_command`
reached the leaf with that verb string. -/
inductive event_t where
  | enter (verb : String)
  | fork
  | pipe
  | open (path : String) (mode : oflag_t)
  | open_failed (path : String) (mode : oflag_t)
  | write (target : Option file_t) (data : String)
  | chdir (path : String) (ok : Bool)
  | exec (file : String) (argv : List String) (stdin stdout stderr : Option file_t)
  | exec_failed (file : String)
  | die (what : String)
deriving DecidableEq, Repr

/-- State of the running process together with the shared log. `stdout_buf` holds
the text `printf` has put in the buffer of `stdout` that was not written out yet. -/
structure World where
  fds : List (Option file_t)
  env : List (String × String)
  cwd : String
  children : List wait_status
  trace : List event_t
  stdout_buf : String
deriving DecidableEq, Repr

/-- Decisions of the operating system, each a function of the log so far. -/
structure OS where
  fork_ok : List event_t → Bool
  pipe_ok : List event_t → Bool
  open_ok : List event_t → String → oflag_t → Bool
  getcwd_ok : List event_t → Bool
  chdir : List event_t → String → String → Option String
  execvp : List event_t → String → List String → Option wait_status
  signal : List event_t → Option Nat
  line_buffered : List event_t → Option file_t → Bool

/-- Result of running a piece of C code in a process. -/
inductive Outcome (α : Type) where
  | ret (a : α) (w : World)
  | terminated (s : wait_status) (w : World)
deriving DecidableEq, Repr

/-- A C computation. -/
def Sh (α : Type) : Type := World → Outcome α

/-- Sequencing: when the first part ends the process, the rest does not run. -/
def Sh.bind {α β : Type} (m : Sh α) (f : α → Sh β) : Sh β := fun w =>
  match m w with
  | .ret a w1 => f a w1
  | .terminated s w1 => .terminated s w1

instance : Monad Sh where
  pure a := fun w => .ret a w
  bind := Sh.bind

/-! ### libc and system calls -/

/-- Descriptor numbers of `<unistd.h>`. -/
def STDIN_FILENO : Int := 0

/-- Descriptor number of standard output. -/
def STDOUT_FILENO : Int := 1

/-- Descriptor number of standard error. -/
def STDERR_FILENO : Int := 2

/-- `EXIT_SUCCESS` of `<stdlib.h>`. -/
def EXIT_SUCCESS : Int := 0

/-- `EXIT_FAILURE` of `<stdlib.h>`. -/
def EXIT_FAILURE : Int := 1

/-- The `SIZE` of cmd.c: the length of the buffer handed to `getcwd`. -/
def SIZE : Nat := 1024

/-- Conversion of an integer to C `bool`, read back as an integer. -/
def to_bool (x : Int) : Int := if x = 0 then 0 else 1

/-- What descriptor `fd` of the process refers to, if it is open. -/
def World.file (w : World) (fd : Int) : Option file_t :=
  if fd < 0 then none else w.fds.getD fd.toNat none

/-- The lowest descriptor number that is not open. -/
def lowest_free : List (Option file_t) → Nat
  | [] => 0
  | none :: _ => 0
  | some _ :: l => lowest_free l + 1

/-- The descriptor table with slot `n` set to `f`. -/
def set_fd (fds : List (Option file_t)) (n : Nat) (f : Option file_t) :
    List (Option file_t) :=
  if n < fds.length then fds.set n f
  else fds ++ List.replicate (n - fds.length) none ++ [f]

/-- Appends an event to the log. -/
def log (e : event_t) : Sh Unit := fun w =>
  .ret () { w with trace := w.trace ++ [e] }

/-- `open(path, flags, 0666)`: the new descriptor, or -1. -/
def open_ (os : OS) (path : String) (mode : oflag_t) : Sh Int := fun w =>
  if os.open_ok w.trace path mode then
    .ret (lowest_free w.fds : Nat)
      { w with fds := set_fd w.fds (lowest_free w.fds)
                        (some (.opened path mode w.trace.length)),
               trace := w.trace ++ [.open path mode] }
  else
    .ret (-1) { w with trace := w.trace ++ [.open_failed path mode] }

/-- `dup(fd)`: the lowest free descriptor now refers to what `fd` refers to. -/
def dup (fd : Int) : Sh Int := fun w =>
  match w.file fd with
  | none => .ret (-1) w
  | some f => .ret (lowest_free w.fds : Nat)
      { w with fds := set_fd w.fds (lowest_free w.fds) (some f) }

/-- `dup2(oldfd, newfd)`. -/
def dup2 (oldfd newfd : Int) : Sh Int := fun w =>
  match w.file oldfd with
  | none => .ret (-1) w
  | some f =>
    if newfd < 0 then .ret (-1) w
    else .ret newfd { w with fds := set_fd w.fds newfd.toNat (some f) }

/-- `close(fd)`. -/
def close (fd : Int) : Sh Int := fun w =>
  match w.file fd with
  | none => .ret (-1) w
  | some _ => .ret 0 { w with fds := set_fd w.fds fd.toNat none }

/-- `pipe(pipe_fd)`: the return code and the two descriptors (read end, write end). -/
def pipe (os : OS) : Sh (Int × Int × Int) := fun w =>
  if os.pipe_ok w.trace then
    let r := lowest_free w.fds
    let fds1 := set_fd w.fds r (some (.pipe_end false w.trace.length))
    let wr := lowest_free fds1
    .ret (0, (r : Nat), (wr : Nat))
      { w with fds := set_fd fds1 wr (some (.pipe_end true w.trace.length)),
               trace := w.trace ++ [.pipe] }
  else .ret (-1, -1, -1) w

/-- `getenv(name)`. -/
def getenv (env : List (String × String)) (name : String) : Option String :=
  env.lookup name

/-- `setenv(name, value, 1)`: fails (and binds nothing) for an empty name and for a
name with an equals sign; otherwise `name` is bound to `value`, replacing an earlier
binding. -/
def setenv (name value : String) : Sh Int := fun w =>
  if name = "" ∨ '=' ∈ name.toList then .ret (-1) w
  else .ret 0 { w with env := (name, value) :: w.env.filter (fun p => p.1 ≠ name) }

/-- `getcwd(cwd, sizeof(cwd))`: the working directory, or none (NULL) when it cannot
be read or does not fit the buffer of `SIZE` bytes. -/
def getcwd (os : OS) : Sh (Option String) := fun w =>
  if os.getcwd_ok w.trace && decide (w.cwd.utf8ByteSize < SIZE) then
    .ret (some w.cwd) w
  else .ret none w

/-- `chdir(path)`: 0 and the working directory changed, or -1 and nothing changed. -/
def chdir (os : OS) (path : String) : Sh Int := fun w =>
  match os.chdir w.trace w.cwd path with
  | some d => .ret 0 { w with cwd := d, trace := w.trace ++ [.chdir path true] }
  | none => .ret (-1) { w with trace := w.trace ++ [.chdir path false] }

/-- The two stdio streams cmd.c names. -/
inductive stream_t where
  | stdout
  | stderr
deriving DecidableEq, Repr

/-- The world after the buffer of `stdout` was written out: the buffered text, if
any, goes to whatever descriptor 1 refers to at that moment. -/
def flush_stdout (w : World) : World :=
  if w.stdout_buf = "" then w
  else { w with trace := w.trace ++ [.write (w.file STDOUT_FILENO) w.stdout_buf],
                stdout_buf := "" }

/-- `printf(...)`: the text is appended to the buffer of `stdout`; when the system
treats the stream as line buffered (descriptor 1 is a terminal) and the text ends in
a newline, the buffer is written out at once. -/
def printf (os : OS) (data : String) : Sh Unit := fun w =>
  if os.line_buffered w.trace (w.file STDOUT_FILENO) &&
      data.toList.getLast? == some '\n' then
    .ret () (flush_stdout { w with stdout_buf := w.stdout_buf ++ data })
  else
    .ret () { w with stdout_buf := w.stdout_buf ++ data }

/-- `fflush(stream)`: for `stdout` the buffer is written out; `stderr` is unbuffered
and has nothing to write. -/
def fflush (stream : stream_t) : Sh Int := fun w =>
  match stream with
  | .stdout => .ret 0 (flush_stdout w)
  | .stderr => .ret 0 w

/-- `exit(code)`: the buffer of `stdout` is written out and the process ends; the
parent sees the low eight bits of `code`. -/
def exit {α : Type} (code : Int) : Sh α := fun w =>
  .terminated (.exited (code % 256).toNat) (flush_stdout w)

/-- Modelled from the spec: the macro `DIE` of utils.h, which is not among the
sources: when the assertion holds the process aborts with a diagnostic on standard
error, through `exit(EXIT_FAILURE)`. -/
def DIE (assertion : Bool) (call_description : String) : Sh Unit := fun w =>
  if assertion then
    .terminated (.exited EXIT_FAILURE.toNat)
      (flush_stdout { w with trace := w.trace ++ [.die call_description] })
  else .ret () w

/-- `execvp(file, argv)`: on success the program image is replaced, the program runs
with the descriptors 0, 1, 2 of the process and the process ends with the status the
program produces (what was left in the buffer of `stdout` is gone with the old
image); on failure the call returns (always -1). -/
def execvp (os : OS) (file : String) (argv : List String) : Sh Int := fun w =>
  match os.execvp w.trace file argv with
  | some st =>
    .terminated st
      { w with trace := w.trace ++
          [.exec file argv (w.file STDIN_FILENO) (w.file STDOUT_FILENO)
            (w.file STDERR_FILENO)],
               stdout_buf := "" }
  | none => .ret (-1) { w with trace := w.trace ++ [.exec_failed file] }

/-- `fork()`: -1 when the system refuses. Otherwise a child starts as a copy of the
process (with no children of its own) and runs `child`, the code of the branch
`pid == 0`, which never returns; the status it ends with (a signal may replace a
call of `exit`) is kept for `waitpid`, the log of the child is kept, and the parent
gets the pid, which is the child's position in the table of children, counted
from 1. -/
def fork (os : OS) (child : Sh Empty) : Sh Int := fun w =>
  if os.fork_ok w.trace then
    match child { w with children := [], trace := w.trace ++ [.fork] } with
    | .terminated st wc =>
      .ret ((w.children.length + 1 : Nat) : Int)
        { w with children := w.children ++
                   [match os.signal wc.trace with
                    | some sig => .signaled sig
                    | none => st],
                 trace := wc.trace }
    | .ret a _ => nomatch a
  else .ret (-1) w

/-- `waitpid(pid, &status, 0)`: the status of that child (a child that does not
exist leaves `status` as it is, modelled as none). -/
def waitpid (pid : Int) : Sh (Option wait_status) := fun w =>
  if pid ≤ 0 then .ret none w else .ret (w.children.get? (pid.toNat - 1)) w

/-- `WIFEXITED` on a status that may be unset. -/
def WIFEXITED? : Option wait_status → Bool
  | some st => WIFEXITED st
  | none => false

/-- `WEXITSTATUS` on a status that may be unset. -/
def WEXITSTATUS? : Option wait_status → Int
  | some st => WEXITSTATUS st
  | none => 0

/-! ### Helpers of utils.c -/

/-- Modelled from the spec: `get_word` of utils.c, which is not among the sources:
the single resolved string of a word, the concatenation of its fragments along
`next_part`, a fragment with `expand` set standing for the value of that environment
variable (empty when unset). -/
def word_string (env : List (String × String)) : word_t → String
  | .mk s e none _ => (if e then (getenv env s).getD "" else s)
  | .mk s e (some p) _ => (if e then (getenv env s).getD "" else s) ++ word_string env p

/-- The call `get_word(w)` in a process. -/
def get_word (wd : word_t) : Sh String := fun w => .ret (word_string w.env wd) w

/-- The resolved strings of the words of a parameter list, along `next_word`. -/
def words_strings (env : List (String × String)) : word_t → List String
  | .mk s e p none => [word_string env (.mk s e p none)]
  | .mk s e p (some n) => word_string env (.mk s e p (some n)) :: words_strings env n

/-- Modelled from the spec: `get_argv` of utils.c, which is not among the sources:
the argument vector of a simple command, the verb followed by the parameters. -/
def get_argv (s : simple_command_t) : Sh (List String) := fun w =>
  .ret (word_string w.env s.verb ::
    (match s.params with
     | none => []
     | some p => words_strings w.env p)) w

/-! ## cmd.c -/

/-- Internal change-directory command (cmd.c, lines 24-31). The result is a C
`bool`. -/
def shell_cd (os : OS) (dir : Option word_t) : Sh Int :=
  match dir with
  | none => pure (to_bool 0)
  | some d => do
    let r ← chdir os d.string
    pure (to_bool r)

/-- Internal exit/quit command (cmd.c, lines 36-39). -/
def shell_exit (K : Consts) : Sh Int := pure K.SHELL_EXIT

/-- Internal print-working-directory command (cmd.c, lines 44-89). The result is a
C `bool`. -/
def shell_pwd (K : Consts) (os : OS) (s : simple_command_t) : Sh Int := do
  let org_stdout ← dup STDOUT_FILENO
  let org_stderr ← dup STDERR_FILENO
  match (← getcwd os) with
  | none => pure (to_bool EXIT_FAILURE)
  | some cwd => do
    match s.out, s.err with
    | some out, none => do
      let path ← get_word out
      let fd_out ← open_ os path
        (if s.io_flags &&& K.IO_OUT_APPEND ≠ 0 then .APPEND else .TRUNC)
      DIE (fd_out == -1) "cannot open fd"
      let _ ← dup2 fd_out STDOUT_FILENO
      printf os (cwd ++ "\n")
      let _ ← fflush .stdout
      let _ ← close fd_out
    | _, _ => pure ()
    match s.err, s.out with
    | some err, none => do
      let path ← get_word err
      let fd_err ← open_ os path
        (if s.io_flags &&& K.IO_ERR_APPEND ≠ 0 then .APPEND else .TRUNC)
      DIE (fd_err == -1) "cannot open fd"
      let _ ← dup2 fd_err STDERR_FILENO
      printf os (cwd ++ "\n")
      let _ ← fflush .stderr
      let _ ← close fd_err
    | _, _ => pure ()
    let _ ← dup2 org_stdout STDOUT_FILENO
    let _ ← close org_stdout
    let _ ← dup2 org_stderr STDERR_FILENO
    let _ ← close org_stderr
    pure (to_bool EXIT_SUCCESS)

/-- The loop of parse_simple at lines 106-114 over the characters of `wd`: a
character is copied when `ok` is already set, and `ok` is set by an equals sign. -/
def copy_after_eq : List Char → Bool → List Char
  | [], _ => []
  | c :: cs, ok => (if ok then [c] else []) ++ copy_after_eq cs (ok || c == '=')

/-- The test of lines 99-100: the verb has a continuation fragment whose string is
the equals sign. -/
def is_assignment (s : simple_command_t) : Bool :=
  match s.verb.next_part with
  | some np => np.string == "="
  | none => false

/-- The redirections the child of parse_simple sets up before `execvp`
(lines 170-234). -/
def child_redirections (K : Consts) (os : OS) (s : simple_command_t) : Sh Unit := do
  match s.out, s.err with
  | some out, some err =>
    if out.string == err.string then do
      let path ← get_word out
      let fd ← open_ os path .TRUNC
      DIE (fd == -1) "cannot open fd"
      let _ ← dup2 fd STDOUT_FILENO
      let _ ← dup2 fd STDERR_FILENO
      let _ ← close fd
    else do
      let path_out ← get_word out
      let fd_out ← open_ os path_out .TRUNC
      DIE (fd_out == -1) "cannot open fd"
      let path_err ← get_word err
      let fd_err ← open_ os path_err .TRUNC
      DIE (fd_err == -1) "cannot open fd"
      let _ ← dup2 fd_out STDOUT_FILENO
      let _ ← close fd_out
      let _ ← dup2 fd_err STDERR_FILENO
      let _ ← close fd_err
  | _, _ => pure ()
  match s.out, s.err with
  | some out, none => do
    let path ← get_word out
    let fd ← open_ os path
      (if s.io_flags &&& K.IO_OUT_APPEND ≠ 0 then .APPEND else .TRUNC)
    DIE (fd == -1) "cannot open fd"
    let _ ← dup2 fd STDOUT_FILENO
    let _ ← close fd
  | _, _ => pure ()
  match s.in_ with
  | some inp => do
    let fd ← open_ os inp.string .RDONLY
    DIE (fd == -1) "cannot open fd"
    let _ ← dup2 fd STDIN_FILENO
    let _ ← close fd
  | none => pure ()
  match s.err, s.out with
  | some err, none => do
    let path ← get_word err
    let fd ← open_ os path
      (if s.io_flags &&& K.IO_ERR_APPEND ≠ 0 then .APPEND else .TRUNC)
    DIE (fd == -1) "cannot open fd"
    let _ ← dup2 fd STDERR_FILENO
    let _ ← close fd
  | _, _ => pure ()

/-- The branch `child == 0` of parse_simple (lines 169-240): the redirections, then
`execvp`; when `execvp` returns (it then returned -1) the child prints the
diagnostic and exits with 1. -/
def parse_simple_child (K : Consts) (os : OS) (s : simple_command_t) : Sh Empty := do
  child_redirections K os s
  let file ← get_word s.verb
  let argv ← get_argv s
  let _ ← execvp os file argv
  let verb ← get_word s.verb
  printf os ("Execution failed for \x27" ++ verb ++ "\x27\n")
  exit 1

/-- Parse a simple command: environment variable assignment, internal command,
external command (cmd.c, lines 95-252). -/
def parse_simple (K : Consts) (os : OS) (s : simple_command_t) (level : Int)
    (father : Option command_t) : Sh Int :=
  if is_assignment s then do
    let wd ← get_word s.verb
    let tmp := String.mk (copy_after_eq wd.toList false)
    let _ ← setenv s.verb.string tmp
    pure EXIT_SUCCESS
  else if s.verb.string == "pwd" then
    shell_pwd K os s
  else if s.verb.string == "cd" then do
    let org_stdout ← dup STDOUT_FILENO
    let org_stderr ← dup STDERR_FILENO
    match s.out, s.err with
    | some out, none => do
      let fd_out ← open_ os out.string
        (if s.io_flags &&& K.IO_OUT_APPEND ≠ 0 then .APPEND else .TRUNC)
      DIE (fd_out == -1) "cannot open fd"
      let _ ← dup2 fd_out STDOUT_FILENO
      let _ ← close fd_out
    | _, _ => pure ()
    match s.err, s.out with
    | some err, none => do
      let fd_err ← open_ os err.string
        (if s.io_flags &&& K.IO_ERR_APPEND ≠ 0 then .APPEND else .TRUNC)
      DIE (fd_err == -1) "cannot open fd"
      let _ ← dup2 fd_err STDERR_FILENO
      let _ ← close fd_err
    | _, _ => pure ()
    let _ ← dup2 org_stdout STDOUT_FILENO
    let _ ← close org_stdout
    let _ ← dup2 org_stderr STDERR_FILENO
    let _ ← close org_stderr
    shell_cd os s.params
  else do
    let child ← fork os (parse_simple_child K os s)
    DIE (child < 0) "fork failed"
    let status ← waitpid child
    if WIFEXITED? status then
      pure (WEXITSTATUS? status)
    else
      shell_exit K

/-- Process two commands in parallel, by creating two children (cmd.c, lines
257-287). `cmd1` and `cmd2` stand for the calls `parse_command(cmd1, level, father)`
and `parse_command(cmd2, level, father)`. The result is a C `bool`. -/
def run_in_parallel (os : OS) (cmd1 cmd2 : Sh Int) : Sh Int := do
  let ret1 : Int := 0
  let child1 ← fork os (do
    let _ ← cmd1
    exit ret1)
  DIE (child1 == -1) "fork failure for child1"
  let child2 ← fork os (do
    let ret2 ← cmd2
    exit ret2)
  DIE (child2 == -1) "fork failure for child2"
  let status ← waitpid child1
  let status2 ← waitpid child2
  if WIFEXITED? status2 && WIFEXITED? status then
    pure (to_bool (WEXITSTATUS? status2))
  else
    pure (to_bool 0)

/-- Run commands by creating an anonymous pipe, cmd1 | cmd2 (cmd.c, lines 292-337).
`cmd1` and `cmd2` stand for the calls `parse_command(cmd1, level, father)` and
`parse_command(cmd2, level, father)`. The result is a C `bool`. -/
def run_on_pipe (os : OS) (cmd1 cmd2 : Sh Int) : Sh Int := do
  let (rc, pipe_fd0, pipe_fd1) ← pipe os
  DIE (rc == -1) "pipe"
  let child1 ← fork os (do
    let _ ← close pipe_fd0
    let _ ← dup2 pipe_fd1 STDOUT_FILENO
    let _ ← close pipe_fd1
    let _ ← cmd1
    exit EXIT_FAILURE)
  DIE (child1 == -1) "fork failure for child1"
  let child2 ← fork os (do
    let _ ← close pipe_fd1
    let _ ← dup2 pipe_fd0 STDIN_FILENO
    let _ ← close pipe_fd0
    let ret ← cmd2
    exit ret)
  DIE (child2 == -1) "fork failure for child2"
  let _ ← close pipe_fd0
  let _ ← close pipe_fd1
  let _ ← waitpid child1
  let status2 ← waitpid child2
  if WIFEXITED? status2 then
    pure (to_bool (WEXITSTATUS? status2))
  else
    pure (to_bool 0)

/-- Parse and execute a command (cmd.c, lines 342-385). Reaching a leaf is logged
with the ghost event `enter`. -/
def parse_command (K : Consts) (os : OS) :
    command_t → Int → Option command_t → Sh Int
  | .leaf scmd, level, father => do
    log (.enter scmd.verb.string)
    if scmd.verb.string == "exit" || scmd.verb.string == "quit" then
      shell_exit K
    else
      parse_simple K os scmd level father
  | .node .OP_SEQUENTIAL cmd1 cmd2, level, father => do
    let _ ← parse_command K os cmd1 level father
    let _ ← parse_command K os cmd2 level father
    pure 0
  | .node .OP_PARALLEL cmd1 cmd2, level, father =>
    run_in_parallel os (parse_command K os cmd1 level father)
      (parse_command K os cmd2 level father)
  | .node .OP_CONDITIONAL_NZERO cmd1 cmd2, level, father => do
    if (← parse_command K os cmd1 level father) == 0 then
      pure 0
    else
      parse_command K os cmd2 level father
  | .node .OP_CONDITIONAL_ZERO cmd1 cmd2, level, father => do
    if (← parse_command K os cmd1 level father) != 0 then
      pure 0
    else
      parse_command K os cmd2 level father
  | .node .OP_PIPE cmd1 cmd2, level, father =>
    run_on_pipe os (parse_command K os cmd1 level father)
      (parse_command K os cmd2 level father)
  | .node .OP_DUMMY _ _, _, _ => pure K.SHELL_EXIT

/-! ## Definitions used to state the theorems -/

/-- Everything after the first equals sign of a string of characters (empty when
there is none): the value part of a word read as NAME=VALUE. -/
def after_first_eq (l : List Char) : List Char :=
  (l.dropWhile (fun c => c != '=')).drop 1

/-- The value an assignment-form verb denotes: everything after the first equals
sign of the resolved (concatenated) word. -/
def assigned_value (env : List (String × String)) (verb : word_t) : String :=
  String.mk (after_first_eq (word_string env verb).toList)

/-- The resolved string of an optional chain of fragments (empty for NULL). -/
def rest_string (env : List (String × String)) : Option word_t → String
  | none => ""
  | some r => word_string env r

/-- The value a computation returned, none when the process ended instead. -/
def Outcome.returned {α : Type} : Outcome α → Option α
  | .ret a _ => some a
  | .terminated _ _ => none

/-- The world a computation ended in. -/
def Outcome.world {α : Type} : Outcome α → World
  | .ret _ w => w
  | .terminated _ w => w

/-! ### A concrete system, for evaluating the code on concrete commands -/

/-- Concrete values for the constants: a sentinel that is no exit code (-100) and the
append bits 1 and 2. -/
def demo_consts : Consts :=
  { SHELL_EXIT := -100, IO_OUT_APPEND := 1, IO_ERR_APPEND := 2 }

/-- An operating system in which every fork, pipe and open succeeds, the working
directory can be read, `/tmp` is the only directory `chdir` accepts, no signal is
delivered, `stdout` is not line buffered, and the programs `true`, `false` and `sh -c "exit 3"` exist and exit with
0, 1 and 3. -/
def demo_os : OS where
  fork_ok _ := true
  pipe_ok _ := true
  open_ok _ _ _ := true
  getcwd_ok _ := true
  chdir _ _ path := if path == "/tmp" then some "/tmp" else none
  execvp _ file argv :=
    if file == "true" then some (.exited 0)
    else if file == "false" then some (.exited 1)
    else if file == "sh" && argv == ["sh", "-c", "exit 3"] then some (.exited 3)
    else none
  signal _ := none
  line_buffered _ _ := false

/-- The system `demo_os`, except that every forked child is ended by signal 9 just
before it would exit. -/
def demo_os_kill : OS :=
  { demo_os with signal := fun _ => some 9 }

/-- A shell process at start: the three standard descriptors, two variables, the
root directory, no children, an empty log, nothing buffered. -/
def demo_world : World :=
  { fds := [some (.inherited 0), some (.inherited 1), some (.inherited 2)],
    env := [("HOME", "/root"), ("A", "log")],
    cwd := "/",
    children := [],
    trace := [],
    stdout_buf := "" }

/-- A word of one literal fragment. -/
def lit (s : String) : word_t := .mk s false none none

/-- A simple command with a one-fragment verb, no parameters, no redirections. -/
def plain (verb : String) : simple_command_t :=
  { verb := lit verb, params := none, in_ := none, out := none, err := none,
    io_flags := 0 }

/-- The leaf `true`. -/
def cmd_true : command_t := .leaf (plain "true")

/-- The leaf `false`. -/
def cmd_false : command_t := .leaf (plain "false")

/-- The leaf `exit`. -/
def cmd_exit : command_t := .leaf (plain "exit")

/-- The leaf `sh -c "exit 3"`. -/
def cmd_exit3 : command_t :=
  .leaf { plain "sh" with params := some (.mk "-c" false none (some (lit "exit 3"))) }

/-- The simple command `cd` with no parameter. -/
def scmd_cd_none : simple_command_t := plain "cd"

/-- The simple command `cd /nonexistent`. -/
def scmd_cd_bad : simple_command_t :=
  { plain "cd" with params := some (lit "/nonexistent") }

/-- The simple command `cd /tmp`. -/
def scmd_cd_tmp : simple_command_t :=
  { plain "cd" with params := some (lit "/tmp") }

/-- The simple command `pwd` with no redirection. -/
def scmd_pwd : simple_command_t := plain "pwd"

/-- The simple command `pwd > o`. -/
def scmd_pwd_out : simple_command_t :=
  { plain "pwd" with out := some (lit "o") }

/-- The simple command `pwd > o 2> e`. -/
def scmd_pwd_both : simple_command_t :=
  { plain "pwd" with out := some (lit "o"), err := some (lit "e") }

/-- The verb of `exit=5`: fragments `exit`, `=`, `5`. -/
def verb_exit_eq_5 : word_t :=
  .mk "exit" false (some (.mk "=" false (some (lit "5")) none)) none

/-- The verb of `cd=a=b`: fragments `cd`, `=`, `a=b`. -/
def verb_cd_eq : word_t :=
  .mk "cd" false (some (.mk "=" false (some (lit "a=b")) none)) none

/-- The simple command `true > $A.out 2> $A.err`: both targets are words of two
fragments, the variable `A` and a literal suffix. -/
def scmd_two_targets : simple_command_t :=
  { plain "true" with
    out := some (.mk "A" true (some (lit ".out")) none),
    err := some (.mk "A" true (some (lit ".err")) none) }

/-- The simple command `true` with output target `ab` written as the two fragments
`a`, `b` and error target `ab` written as one fragment. -/
def scmd_same_target : simple_command_t :=
  { plain "true" with
    out := some (.mk "a" false (some (lit "b")) none),
    err := some (lit "ab") }

/-! ## Lemmas about the model -/

/-- Running `pure a` returns `a` and leaves the world as it is. -/
theorem pure_run {α : Type} (a : α) (w : World) : (pure a : Sh α) w = .ret a w := rfl

/-- Running a sequence is `Sh.bind`. -/
theorem bind_run {α β : Type} (m : Sh α) (f : α → Sh β) (w : World) :
    (m >>= f) w = Sh.bind m f w := rfl

/-- When the first part returns, the sequence goes on with the rest. -/
theorem bind_ret {α β : Type} (m : Sh α) (f : α → Sh β) (w w1 : World) (a : α)
    (h : m w = .ret a w1) : (m >>= f) w = f a w1 := by
  show Sh.bind m f w = _
  simp [Sh.bind, h]

/-- The two ways `fork` ends in the parent: refused, or a child ran and its status was
appended to the table of children under the next pid. -/
theorem fork_result (os : OS) (child : Sh Empty) (w : World) :
    fork os child w = .ret (-1) w ∨
    ∃ st tr, fork os child w =
      .ret ((w.children.length + 1 : Nat) : Int)
        { w with children := w.children ++ [st], trace := tr } := by
  unfold fork
  by_cases hf : os.fork_ok w.trace = true
  · right
    simp only [hf, if_true]
    cases hc : child { w with children := [], trace := w.trace ++ [.fork] } with
    | ret a _ => exact a.elim
    | terminated st wc => exact ⟨_, _, rfl⟩
  · left
    simp [hf]

/-- The macro does nothing when the assertion is false. -/
theorem DIE_false (msg : String) (w : World) : DIE false msg w = .ret () w := rfl

/-- The macro ends the process when the assertion is true. -/
theorem DIE_true (msg : String) (w : World) :
    DIE true msg w = .terminated (.exited EXIT_FAILURE.toNat)
      (flush_stdout { w with trace := w.trace ++ [.die msg] }) := rfl

/-- Waiting for the pid of a child gives the status stored for it. -/
theorem waitpid_nth (w1 : World) (pre post : List wait_status) (st : wait_status)
    (n : Nat) (hn : n = pre.length + 1) (h : w1.children = pre ++ st :: post) :
    waitpid (n : Int) w1 = .ret (some st) w1 := by
  unfold waitpid
  have hpos : ¬ ((n : Int) ≤ 0) := by omega
  subst hn
  have hidx : (((pre.length + 1 : Nat) : Int)).toNat - 1 = pre.length := by simp
  simp only [hpos, if_false, h, hidx]
  rw [List.get?_eq_getElem?, List.getElem?_append_right (le_refl _)]
  simp

/-- The value run_in_parallel returns, in terms of the wait statuses of its two
children. -/
theorem run_in_parallel_result (os : OS) (cmd1 cmd2 : Sh Int) (w w1 : World) (r : Int)
    (h : run_in_parallel os cmd1 cmd2 w = .ret r w1) :
    ∃ status status2, w1.children = w.children ++ [status, status2] ∧
      r = if WIFEXITED status2 && WIFEXITED status then to_bool (WEXITSTATUS status2) else 0 := by
  unfold run_in_parallel at h
  simp only [] at h
  rcases fork_result os (do let _ ← cmd1; exit 0) w with e1 | ⟨s1, t1, e1⟩
  · rw [bind_ret _ _ _ _ _ e1] at h
    simp [bind_run, Sh.bind, DIE] at h
  · rw [bind_ret _ _ _ _ _ e1] at h
    have hd : ((((w.children.length + 1 : Nat) : Int)) == -1) = false := by
      simp; omega
    rw [hd, bind_ret _ _ _ _ _ (DIE_false _ _)] at h
    rcases fork_result os (do let ret2 ← cmd2; exit ret2)
      { w with children := w.children ++ [s1], trace := t1 } with e2 | ⟨s2, t2, e2⟩
    · rw [bind_ret _ _ _ _ _ e2] at h
      simp [bind_run, Sh.bind, DIE] at h
    · rw [bind_ret _ _ _ _ _ e2] at h
      simp only [List.length_append, List.length_singleton] at h
      have hd2 : ((((w.children.length + 1 + 1 : Nat) : Int)) == -1) = false := by
        simp; omega
      rw [hd2, bind_ret _ _ _ _ _ (DIE_false _ _)] at h
      rw [bind_ret _ _ _ _ _ (waitpid_nth _ w.children [s2] s1 _ rfl (by simp))] at h
      rw [bind_ret _ _ _ _ _ (waitpid_nth _ (w.children ++ [s1]) [] s2 _ (by simp) (by simp))] at h
      refine ⟨s1, s2, ?_, ?_⟩
      · by_cases hc : (WIFEXITED? (some s2) && WIFEXITED? (some s1)) = true
        · simp only [hc, if_true, pure_run] at h
          injection h with _ hw
          rw [← hw]; simp
        · simp only [hc, pure_run] at h
          injection h with _ hw
          rw [← hw]; simp
      · by_cases hc : (WIFEXITED? (some s2) && WIFEXITED? (some s1)) = true
        · simp only [hc, if_true, pure_run] at h
          injection h with hr _
          rw [← hr]
          simp only [WIFEXITED?] at hc
          simp [hc, WEXITSTATUS?]
        · simp only [hc, pure_run] at h
          injection h with hr _
          rw [← hr]
          simp only [WIFEXITED?] at hc
          simp [hc, to_bool]

/-- The call `close` changes nothing but the descriptor table. -/
theorem close_result (fd : Int) (w : World) :
    ∃ r fds1, close fd w = .ret r { w with fds := fds1 } := by
  unfold close
  cases World.file w fd with
  | none => exact ⟨-1, w.fds, rfl⟩
  | some f => exact ⟨0, _, rfl⟩

/-- The two ways `pipe` ends: refused, or two descriptors were added. -/
theorem pipe_result (os : OS) (w : World) :
    pipe os w = .ret (-1, -1, -1) w ∨
    ∃ fd0 fd1 fds1 tr, pipe os w = .ret (0, fd0, fd1) { w with fds := fds1, trace := tr } := by
  unfold pipe
  by_cases hp : os.pipe_ok w.trace = true
  · right
    simp only [hp, if_true]
    exact ⟨_, _, _, _, rfl⟩
  · left
    simp [hp]

/-- The value run_on_pipe returns, in terms of the wait statuses of its two children.
-/
theorem run_on_pipe_result (os : OS) (cmd1 cmd2 : Sh Int) (w w1 : World) (r : Int)
    (h : run_on_pipe os cmd1 cmd2 w = .ret r w1) :
    ∃ status status2, w1.children = w.children ++ [status, status2] ∧
      r = if WIFEXITED status2 then to_bool (WEXITSTATUS status2) else 0 := by
  unfold run_on_pipe at h
  rcases pipe_result os w with e0 | ⟨fd0, fd1, fds0, t0, e0⟩
  · rw [bind_ret _ _ _ _ _ e0] at h
    simp [bind_run, Sh.bind, DIE] at h
  · rw [bind_ret _ _ _ _ _ e0] at h
    simp only [] at h
    have hd0 : ((0 : Int) == -1) = false := by decide
    rw [hd0, bind_ret _ _ _ _ _ (DIE_false _ _)] at h
    rcases fork_result os (do
        let _ ← close fd0
        let _ ← dup2 fd1 STDOUT_FILENO
        let _ ← close fd1
        let _ ← cmd1
        exit EXIT_FAILURE) { w with fds := fds0, trace := t0 } with e1 | ⟨s1, t1, e1⟩
    · rw [bind_ret _ _ _ _ _ e1] at h
      simp [bind_run, Sh.bind, DIE] at h
    · rw [bind_ret _ _ _ _ _ e1] at h
      have hd : ((((w.children.length + 1 : Nat) : Int)) == -1) = false := by
        simp; omega
      simp only [] at h
      rw [hd, bind_ret _ _ _ _ _ (DIE_false _ _)] at h
      rcases fork_result os (do
          let _ ← close fd1
          let _ ← dup2 fd0 STDIN_FILENO
          let _ ← close fd0
          let ret ← cmd2
          exit ret)
        { w with fds := fds0, children := w.children ++ [s1], trace := t1 }
        with e2 | ⟨s2, t2, e2⟩
      · rw [bind_ret _ _ _ _ _ e2] at h
        simp [bind_run, Sh.bind, DIE] at h
      · rw [bind_ret _ _ _ _ _ e2] at h
        simp only [List.length_append, List.length_singleton] at h
        have hd2 : ((((w.children.length + 1 + 1 : Nat) : Int)) == -1) = false := by
          simp; omega
        rw [hd2, bind_ret _ _ _ _ _ (DIE_false _ _)] at h
        obtain ⟨r1, fdsa, ec1⟩ := close_result fd0
          { w with fds := fds0, children := w.children ++ [s1] ++ [s2], trace := t2 }
        rw [bind_ret _ _ _ _ _ ec1] at h
        obtain ⟨r2, fdsb, ec2⟩ := close_result fd1
          { w with fds := fdsa, children := w.children ++ [s1] ++ [s2], trace := t2 }
        rw [bind_ret _ _ _ _ _ ec2] at h
        rw [bind_ret _ _ _ _ _ (waitpid_nth _ w.children [s2] s1 _ rfl (by simp))] at h
        rw [bind_ret _ _ _ _ _ (waitpid_nth _ (w.children ++ [s1]) [] s2 _ (by simp) (by simp))] at h
        refine ⟨s1, s2, ?_, ?_⟩
        · by_cases hc : WIFEXITED? (some s2) = true
          · simp only [hc, if_true, pure_run] at h
            injection h with _ hw
            rw [← hw]; simp
          · simp only [hc, pure_run] at h
            injection h with _ hw
            rw [← hw]; simp
        · by_cases hc : WIFEXITED? (some s2) = true
          · simp only [hc, if_true, pure_run] at h
            injection h with hr _
            rw [← hr]
            simp only [WIFEXITED?] at hc
            simp [hc, WEXITSTATUS?]
          · simp only [hc, pure_run] at h
            injection h with hr _
            rw [← hr]
            simp only [WIFEXITED?] at hc
            simp [hc, to_bool]

/-- Once `ok` is set the loop copies every character. -/
theorem copy_after_eq_true (l : List Char) : copy_after_eq l true = l := by
  induction l with
  | nil => rfl
  | cons c cs ih => simp [copy_after_eq, ih]

/-- Started with `ok` unset, the loop copies exactly what follows the first equals
sign. -/
theorem copy_after_eq_false (l : List Char) :
    copy_after_eq l false = after_first_eq l := by
  induction l with
  | nil => rfl
  | cons c cs ih =>
    by_cases hc : c = '='
    · subst hc
      simp [copy_after_eq, after_first_eq, copy_after_eq_true, List.dropWhile]
    · have hb : (c != '=') = true := by simp [hc]
      have hb2 : (c == '=') = false := by simpa using hc
      rw [copy_after_eq, after_first_eq, List.dropWhile, hb]
      simp [hb2, ih, after_first_eq]

/-- After a name without equals sign and an equals sign, what follows is the rest. -/
theorem after_first_eq_append (n v : List Char) (h : '=' ∉ n) :
    after_first_eq (n ++ '=' :: v) = v := by
  induction n with
  | nil => simp [after_first_eq, List.dropWhile]
  | cons c cs ih =>
    have hc : c ≠ '=' := fun e => h (by simp [e])
    have hcs : '=' ∉ cs := fun e => h (by simp [e])
    have hb : (c != '=') = true := by simp [hc]
    rw [List.cons_append, after_first_eq, List.dropWhile, hb]
    exact ih hcs

/-- The call `dup` changes nothing but the descriptor table. -/
theorem dup_result (fd : Int) (w : World) :
    ∃ r fds1, dup fd w = .ret r { w with fds := fds1 } := by
  unfold dup
  cases World.file w fd with
  | none => exact ⟨-1, w.fds, rfl⟩
  | some f => exact ⟨_, _, rfl⟩

/-- The call `dup2` changes nothing but the descriptor table. -/
theorem dup2_result (oldfd newfd : Int) (w : World) :
    ∃ r fds1, dup2 oldfd newfd w = .ret r { w with fds := fds1 } := by
  unfold dup2
  cases World.file w oldfd with
  | none => exact ⟨-1, w.fds, rfl⟩
  | some f =>
    by_cases hn : newfd < 0
    · exact ⟨-1, w.fds, by simp [hn]⟩
    · exact ⟨newfd, set_fd w.fds newfd.toNat (some f), by simp [hn]⟩

/-- The tail of shell_pwd and of the cd branch: restoring the two saved descriptors
changes nothing but the descriptor table. -/
theorem restore_result {α : Type} (org_stdout org_stderr : Int) (k : Sh α) (w : World) :
    ∃ fds1, (do
      let _ ← dup2 org_stdout STDOUT_FILENO
      let _ ← close org_stdout
      let _ ← dup2 org_stderr STDERR_FILENO
      let _ ← close org_stderr
      k) w = k { w with fds := fds1 } := by
  obtain ⟨r1, f1, e1⟩ := dup2_result org_stdout STDOUT_FILENO w
  obtain ⟨r2, f2, e2⟩ := close_result org_stdout { w with fds := f1 }
  obtain ⟨r3, f3, e3⟩ := dup2_result org_stderr STDERR_FILENO { w with fds := f2 }
  obtain ⟨r4, f4, e4⟩ := close_result org_stderr { w with fds := f3 }
  refine ⟨f4, ?_⟩
  rw [bind_ret _ _ _ _ _ e1, bind_ret _ _ _ _ _ e2, bind_ret _ _ _ _ _ e3,
    bind_ret _ _ _ _ _ e4]

/-- What shell_pwd does when neither or both of the output and error targets are set:
it returns, 0 when the working directory could be read and 1 otherwise, and changes
nothing but the descriptor table: the log is as before, so no file was opened and
nothing was written. -/
theorem shell_pwd_unredirected (K : Consts) (os : OS) (s : simple_command_t) (w : World)
    (hredir : s.out.isSome = s.err.isSome) :
    ∃ fds1, shell_pwd K os s w =
      .ret (if os.getcwd_ok w.trace && decide (w.cwd.utf8ByteSize < SIZE) then 0 else 1)
        { w with fds := fds1 } := by
  unfold shell_pwd
  obtain ⟨r1, f1, e1⟩ := dup_result STDOUT_FILENO w
  obtain ⟨r2, f2, e2⟩ := dup_result STDERR_FILENO { w with fds := f1 }
  rw [bind_ret _ _ _ _ _ e1, bind_ret _ _ _ _ _ e2]
  by_cases hg : (os.getcwd_ok w.trace && decide (w.cwd.utf8ByteSize < SIZE)) = true
  · have eg : getcwd os { w with fds := f2 } = .ret (some w.cwd) { w with fds := f2 } := by
      unfold getcwd
      simp only [hg, if_true]
    rw [bind_ret _ _ _ _ _ eg]
    simp only [hg, if_true]
    cases ho : s.out with
    | none =>
      cases he : s.err with
      | none =>
        simp only []
        rw [bind_ret _ _ _ _ _ (pure_run _ _), bind_ret _ _ _ _ _ (pure_run _ _)]
        obtain ⟨f, ef⟩ := restore_result r1 r2 (pure (to_bool EXIT_SUCCESS)) { w with fds := f2 }
        exact ⟨f, ef⟩
      | some e => simp [ho, he] at hredir
    | some o =>
      cases he : s.err with
      | none => simp [ho, he] at hredir
      | some e =>
        simp only []
        rw [bind_ret _ _ _ _ _ (pure_run _ _), bind_ret _ _ _ _ _ (pure_run _ _)]
        obtain ⟨f, ef⟩ := restore_result r1 r2 (pure (to_bool EXIT_SUCCESS)) { w with fds := f2 }
        exact ⟨f, ef⟩
  · have eg : getcwd os { w with fds := f2 } = .ret none { w with fds := f2 } := by
      unfold getcwd
      simp only [hg]
      rfl
    rw [bind_ret _ _ _ _ _ eg]
    simp only [hg]
    exact ⟨f2, rfl⟩

/-- A sequence that returns went through a first part that returned. -/
theorem bind_eq_ret {α β : Type} (m : Sh α) (f : α → Sh β) (w w1 : World) (b : β)
    (h : (m >>= f) w = .ret b w1) : ∃ a w0, m w = .ret a w0 ∧ f a w0 = .ret b w1 := by
  change Sh.bind m f w = _ at h
  unfold Sh.bind at h
  cases hm : m w with
  | ret a w0 =>
    rw [hm] at h
    exact ⟨a, w0, rfl, h⟩
  | terminated st w0 =>
    rw [hm] at h
    cases h

/-- The two paths of shell_cd: without a directory the C `bool` false, that is 0;
with a directory the C `bool` of what `chdir` returned, that is 0 when the directory
was changed and 1 when it was not. -/
theorem shell_cd_status (os : OS) (dir : Option word_t) (w w1 : World) (r : Int)
    (h : shell_cd os dir w = .ret r w1) :
    (dir = none → r = 0 ∧ w1 = w) ∧
    (∀ d, dir = some d →
      (os.chdir w.trace w.cwd d.string = none → r = 1 ∧ w1.cwd = w.cwd) ∧
      (∀ nd, os.chdir w.trace w.cwd d.string = some nd → r = 0 ∧ w1.cwd = nd)) := by
  cases dir with
  | none =>
    refine ⟨fun _ => ?_, fun d hd => by cases hd⟩
    simp only [shell_cd, pure_run] at h
    injection h with hr hw
    exact ⟨hr.symm, hw.symm⟩
  | some d0 =>
    refine ⟨fun hd => (by cases hd), fun d hd => ?_⟩
    injection hd with hd
    subst hd
    simp only [shell_cd] at h
    constructor
    · intro hc
      have e : chdir os d0.string w =
          .ret (-1) { w with trace := w.trace ++ [.chdir d0.string false] } := by
        simp only [chdir, hc]
      rw [bind_ret _ _ _ _ _ e, pure_run] at h
      injection h with hr hw
      rw [← hr, ← hw]
      exact ⟨by decide, rfl⟩
    · intro nd hc
      have e : chdir os d0.string w =
          .ret 0 { w with cwd := nd, trace := w.trace ++ [.chdir d0.string true] } := by
        simp only [chdir, hc]
      rw [bind_ret _ _ _ _ _ e, pure_run] at h
      injection h with hr hw
      rw [← hr, ← hw]
      exact ⟨by decide, rfl⟩

/-- The status parse_simple returns for a `cd` command is the status of shell_cd on
its parameters, called in some world `w0` that the redirection block left. -/
theorem parse_simple_cd (K : Consts) (os : OS) (s : simple_command_t) (level : Int)
    (father : Option command_t) (w w1 : World) (r : Int)
    (hna : is_assignment s = false) (hcd : s.verb.string = "cd")
    (h : parse_simple K os s level father w = .ret r w1) :
    ∃ w0, shell_cd os s.params w0 = .ret r w1 := by
  unfold parse_simple at h
  have hp : (s.verb.string == "pwd") = false := by rw [hcd]; decide
  have hc : (s.verb.string == "cd") = true := by rw [hcd]; decide
  simp only [hna, hp, hc, if_true, Bool.false_eq_true, if_false] at h
  obtain ⟨_, _, _, h⟩ := bind_eq_ret _ _ _ _ _ h
  obtain ⟨_, _, _, h⟩ := bind_eq_ret _ _ _ _ _ h
  cases ho : s.out <;> cases he : s.err <;> simp only [ho, he] at h <;>
    repeat (obtain ⟨_, _, _, h⟩ := bind_eq_ret _ _ _ _ _ h)
  all_goals exact ⟨_, h⟩

/-! ## The operators of parse_command -/

/-- What OP_SEQUENTIAL does when both children return: the status of the node is 0,
whatever the two children returned, and the world is the one the right child left. -/
theorem sequential_node_result (K : Consts) (os : OS) (A B : command_t) (level : Int)
    (father : Option command_t) (w w1 w2 : World) (a b : Int)
    (hA : parse_command K os A level father w = .ret a w1)
    (hB : parse_command K os B level father w1 = .ret b w2) :
    parse_command K os (.node .OP_SEQUENTIAL A B) level father w = .ret 0 w2 := by
  rw [parse_command, bind_ret _ _ _ _ _ hA, bind_ret _ _ _ _ _ hB]
  rfl

/-- C1 (code as it is): on `true ; false`, evaluated in `demo_os` from `demo_world`,
the left child returns 0, the right child then returns 1, and parse_command on the
SEQUENTIAL node returns 0, not the 1 of its right child. -/
theorem sequential_true_false_returns_zero :
    parse_command demo_consts demo_os cmd_true 0 none demo_world =
      .ret 0 { demo_world with
        children := [.exited 0],
        trace := [.enter "true", .fork,
          .exec "true" ["true"] (some (.inherited 0)) (some (.inherited 1))
            (some (.inherited 2))] } ∧
    parse_command demo_consts demo_os cmd_false 0 none
      { demo_world with
        children := [.exited 0],
        trace := [.enter "true", .fork,
          .exec "true" ["true"] (some (.inherited 0)) (some (.inherited 1))
            (some (.inherited 2))] } =
      .ret 1 { demo_world with
        children := [.exited 0, .exited 1],
        trace := [.enter "true", .fork,
          .exec "true" ["true"] (some (.inherited 0)) (some (.inherited 1))
            (some (.inherited 2)),
          .enter "false", .fork,
          .exec "false" ["false"] (some (.inherited 0)) (some (.inherited 1))
            (some (.inherited 2))] } ∧
    parse_command demo_consts demo_os (.node .OP_SEQUENTIAL cmd_true cmd_false) 0 none
        demo_world =
      .ret 0 { demo_world with
        children := [.exited 0, .exited 1],
        trace := [.enter "true", .fork,
          .exec "true" ["true"] (some (.inherited 0)) (some (.inherited 1))
            (some (.inherited 2)),
          .enter "false", .fork,
          .exec "false" ["false"] (some (.inherited 0)) (some (.inherited 1))
            (some (.inherited 2))] } := by
  decide

/-- C2: for a node COND_ZERO(A, B) whose left child A returns status `a` leaving the
world `w1`: when `a` is 0 the node behaves from there exactly as B evaluated in `w1`
(B is evaluated and its status is the result); when `a` is not 0 (the sentinel
included) the node returns 0 in the very world `w1` that A left, so nothing of B
happened: no leaf of B was entered, no process spawned, no descriptor, variable or
directory changed. -/
theorem cond_zero_contract (K : Consts) (os : OS) (A B : command_t) (level : Int)
    (father : Option command_t) (w w1 : World) (a : Int)
    (hA : parse_command K os A level father w = .ret a w1) :
    (a = 0 → parse_command K os (.node .OP_CONDITIONAL_ZERO A B) level father w
        = parse_command K os B level father w1) ∧
    (a ≠ 0 → parse_command K os (.node .OP_CONDITIONAL_ZERO A B) level father w
        = .ret 0 w1) := by
  constructor
  · intro h0
    subst h0
    rw [parse_command, bind_ret _ _ _ _ _ hA]
    simp
  · intro hne
    rw [parse_command, bind_ret _ _ _ _ _ hA]
    simp [hne, pure_run]

/-- Witness of C2 on `false && true` (left child returns 1): the node returns 0 in
the world the left child left. -/
theorem cond_zero_contract_witness :
    parse_command demo_consts demo_os cmd_false 0 none demo_world =
      .ret 1 { demo_world with
        children := [.exited 1],
        trace := [.enter "false", .fork,
          .exec "false" ["false"] (some (.inherited 0)) (some (.inherited 1))
            (some (.inherited 2))] } ∧
    (((1 : Int) = 0 →
      parse_command demo_consts demo_os (.node .OP_CONDITIONAL_ZERO cmd_false cmd_true) 0
          none demo_world =
        parse_command demo_consts demo_os cmd_true 0 none
          { demo_world with
            children := [.exited 1],
            trace := [.enter "false", .fork,
              .exec "false" ["false"] (some (.inherited 0)) (some (.inherited 1))
                (some (.inherited 2))] }) ∧
     ((1 : Int) ≠ 0 →
      parse_command demo_consts demo_os (.node .OP_CONDITIONAL_ZERO cmd_false cmd_true) 0
          none demo_world =
        .ret 0 { demo_world with
          children := [.exited 1],
          trace := [.enter "false", .fork,
            .exec "false" ["false"] (some (.inherited 0)) (some (.inherited 1))
              (some (.inherited 2))] })) :=
  ⟨by decide,
   cond_zero_contract demo_consts demo_os cmd_false cmd_true 0 none demo_world _ 1
     (by decide)⟩

/-- C3: for a node COND_NONZERO(A, B) whose left child A returns status `a` leaving
the world `w1`: when `a` is not 0 the node behaves from there exactly as B evaluated
in `w1` (B is evaluated and its status is the result); when `a` is 0 the node returns
0 in the very world `w1` that A left, so no leaf of B was evaluated. -/
theorem cond_nonzero_contract (K : Consts) (os : OS) (A B : command_t) (level : Int)
    (father : Option command_t) (w w1 : World) (a : Int)
    (hA : parse_command K os A level father w = .ret a w1) :
    (a ≠ 0 → parse_command K os (.node .OP_CONDITIONAL_NZERO A B) level father w
        = parse_command K os B level father w1) ∧
    (a = 0 → parse_command K os (.node .OP_CONDITIONAL_NZERO A B) level father w
        = .ret 0 w1) := by
  constructor
  · intro hne
    rw [parse_command, bind_ret _ _ _ _ _ hA]
    simp [hne]
  · intro h0
    subst h0
    rw [parse_command, bind_ret _ _ _ _ _ hA]
    simp [pure_run]

/-- Witness of C3 on `true || false` (left child returns 0): the node returns 0 in
the world the left child left. -/
theorem cond_nonzero_contract_witness :
    parse_command demo_consts demo_os cmd_true 0 none demo_world =
      .ret 0 { demo_world with
        children := [.exited 0],
        trace := [.enter "true", .fork,
          .exec "true" ["true"] (some (.inherited 0)) (some (.inherited 1))
            (some (.inherited 2))] } ∧
    (((0 : Int) ≠ 0 →
      parse_command demo_consts demo_os (.node .OP_CONDITIONAL_NZERO cmd_true cmd_false) 0
          none demo_world =
        parse_command demo_consts demo_os cmd_false 0 none
          { demo_world with
            children := [.exited 0],
            trace := [.enter "true", .fork,
              .exec "true" ["true"] (some (.inherited 0)) (some (.inherited 1))
                (some (.inherited 2))] }) ∧
     ((0 : Int) = 0 →
      parse_command demo_consts demo_os (.node .OP_CONDITIONAL_NZERO cmd_true cmd_false) 0
          none demo_world =
        .ret 0 { demo_world with
          children := [.exited 0],
          trace := [.enter "true", .fork,
            .exec "true" ["true"] (some (.inherited 0)) (some (.inherited 1))
              (some (.inherited 2))] })) :=
  ⟨by decide,
   cond_nonzero_contract demo_consts demo_os cmd_true cmd_false 0 none demo_world _ 0
     (by decide)⟩

/-- What OP_PIPE returns: when the node returns `r`, two children were added to the
table of the process, and with `status2` the wait status of the second one (the
process running the right child) `r` is the C `bool` of its exit code when it exited
and 0 otherwise; the status of the first child does not occur in `r`. -/
theorem pipe_node_result (K : Consts) (os : OS) (A B : command_t) (level : Int)
    (father : Option command_t) (w w1 : World) (r : Int)
    (h : parse_command K os (.node .OP_PIPE A B) level father w = .ret r w1) :
    ∃ status status2, w1.children = w.children ++ [status, status2] ∧
      r = if WIFEXITED status2 then to_bool (WEXITSTATUS status2) else 0 := by
  rw [parse_command] at h
  exact run_on_pipe_result os _ _ w w1 r h

/-- What OP_PARALLEL returns: when the node returns `r`, two children were added to
the table of the process, and with `status`, `status2` their wait statuses `r` is the
C `bool` of the exit code of the second one when both exited and 0 otherwise. -/
theorem parallel_node_result (K : Consts) (os : OS) (A B : command_t) (level : Int)
    (father : Option command_t) (w w1 : World) (r : Int)
    (h : parse_command K os (.node .OP_PARALLEL A B) level father w = .ret r w1) :
    ∃ status status2, w1.children = w.children ++ [status, status2] ∧
      r = if WIFEXITED status2 && WIFEXITED status then to_bool (WEXITSTATUS status2)
          else 0 := by
  rw [parse_command] at h
  exact run_in_parallel_result os _ _ w w1 r h

/-- C4 (code as it is): on `true | sh -c "exit 3"`, evaluated in `demo_os` from
`demo_world`, the process running the right child ends normally with exit code 3
(second entry of the table of children) and parse_command on the PIPE node returns
1, not 3. -/
theorem pipe_exit3_returns_one :
    parse_command demo_consts demo_os (.node .OP_PIPE cmd_true cmd_exit3) 0 none
        demo_world =
      .ret 1 { demo_world with
        fds := [some (.inherited 0), some (.inherited 1), some (.inherited 2), none,
          none],
        children := [.exited 1, .exited 3],
        trace := [.pipe, .fork, .enter "true", .fork,
          .exec "true" ["true"] (some (.inherited 0)) (some (.pipe_end true 0))
            (some (.inherited 2)),
          .fork, .enter "sh", .fork,
          .exec "sh" ["sh", "-c", "exit 3"] (some (.pipe_end false 0))
            (some (.inherited 1)) (some (.inherited 2))] } ∧
    WIFEXITED (.exited 3) = true ∧ WEXITSTATUS (.exited 3) = 3 := by
  decide!

/-- C5 (code as it is): on `true & sh -c "exit 3"`, evaluated in `demo_os` from
`demo_world`, both children end normally, the one running the right child with exit
code 3, and parse_command on the PARALLEL node returns 1, not 3. -/
theorem parallel_exit3_returns_one :
    parse_command demo_consts demo_os (.node .OP_PARALLEL cmd_true cmd_exit3) 0 none
        demo_world =
      .ret 1 { demo_world with
        children := [.exited 0, .exited 3],
        trace := [.fork, .enter "true", .fork,
          .exec "true" ["true"] (some (.inherited 0)) (some (.inherited 1))
            (some (.inherited 2)),
          .fork, .enter "sh", .fork,
          .exec "sh" ["sh", "-c", "exit 3"] (some (.inherited 0))
            (some (.inherited 1)) (some (.inherited 2))] } ∧
    WIFEXITED (.exited 0) = true ∧ WIFEXITED (.exited 3) = true ∧
    WEXITSTATUS (.exited 3) = 3 := by
  decide

/-- A child ended by a signal: in `demo_os_kill`, where every forked child is killed
by signal 9, both `true & sh -c "exit 3"` and `true | sh -c "exit 3"` return 0. -/
theorem killed_children_return_zero :
    (parse_command demo_consts demo_os_kill
        (.node .OP_PARALLEL cmd_true cmd_exit3) 0 none demo_world).returned = some 0 ∧
    (parse_command demo_consts demo_os_kill
        (.node .OP_PARALLEL cmd_true cmd_exit3) 0 none demo_world).world.children =
      [.signaled 9, .signaled 9] ∧
    (parse_command demo_consts demo_os_kill
        (.node .OP_PIPE cmd_true cmd_exit3) 0 none demo_world).returned = some 0 ∧
    (parse_command demo_consts demo_os_kill
        (.node .OP_PIPE cmd_true cmd_exit3) 0 none demo_world).world.children =
      [.signaled 9, .signaled 9] := by
  decide!

/-! ## Leaves: exit, assignments, cd, pwd, external commands -/

/-- C6 (counterexample): on `exit ; true`, evaluated in `demo_os` from `demo_world`,
parse_command on the SEQUENTIAL node returns 0, which is not the sentinel, and the
right sibling was evaluated: the leaf `true` was entered and its program was run. -/
theorem sequential_after_exit_runs_sibling :
    parse_command demo_consts demo_os (.node .OP_SEQUENTIAL cmd_exit cmd_true) 0 none
        demo_world =
      .ret 0 { demo_world with
        children := [.exited 0],
        trace := [.enter "exit", .enter "true", .fork,
          .exec "true" ["true"] (some (.inherited 0)) (some (.inherited 1))
            (some (.inherited 2))] } ∧
    demo_consts.SHELL_EXIT ≠ 0 := by
  decide

/-- C6 (amended): a leaf E whose verb is exactly `exit` or `quit` returns the
sentinel SHELL_EXIT at once and does nothing (only the ghost event of entering the
leaf is logged); a node SEQUENTIAL(E, B) discards that status and goes on to
evaluate B in that world: whenever B returns, the node returns, in the world B
left; and when such a node is the left child of a further SEQUENTIAL node, the right
child C of that node is evaluated after B as well: whenever C returns, the outer
node returns, in the world C left. Which status the SEQUENTIAL nodes return is not
stated. -/
theorem exit_leaf_in_sequence (K : Consts) (os : OS) (E : simple_command_t)
    (B C : command_t) (level : Int) (father : Option command_t) (w : World)
    (hE : E.verb.string = "exit" ∨ E.verb.string = "quit") :
    parse_command K os (.leaf E) level father w =
      .ret K.SHELL_EXIT { w with trace := w.trace ++ [.enter E.verb.string] } ∧
    (∀ b w2, parse_command K os B level father
        { w with trace := w.trace ++ [.enter E.verb.string] } = .ret b w2 →
      ∃ r, parse_command K os (.node .OP_SEQUENTIAL (.leaf E) B) level father w =
        .ret r w2) ∧
    (∀ b w2 c w3, parse_command K os B level father
        { w with trace := w.trace ++ [.enter E.verb.string] } = .ret b w2 →
      parse_command K os C level father w2 = .ret c w3 →
      ∃ r, parse_command K os
        (.node .OP_SEQUENTIAL (.node .OP_SEQUENTIAL (.leaf E) B) C) level father w =
        .ret r w3) := by
  have hleaf : parse_command K os (.leaf E) level father w =
      .ret K.SHELL_EXIT { w with trace := w.trace ++ [.enter E.verb.string] } := by
    rw [parse_command]
    rcases hE with h | h <;> simp [h, bind_run, Sh.bind, log, shell_exit, pure_run]
  refine ⟨hleaf, ?_, ?_⟩
  · intro b w2 hB
    exact ⟨0, sequential_node_result K os _ _ level father w _ w2 _ b hleaf hB⟩
  · intro b w2 c w3 hB hC
    exact ⟨0, sequential_node_result K os _ _ level father w w2 w3 0 c
      (sequential_node_result K os _ _ level father w _ w2 _ b hleaf hB) hC⟩

/-- Witness of C6 (amended) on `exit ; true` and `(exit ; true) ; false`. -/
theorem exit_leaf_in_sequence_witness :
    ((plain "exit").verb.string = "exit" ∨ (plain "exit").verb.string = "quit") ∧
    (parse_command demo_consts demo_os (.leaf (plain "exit")) 0 none demo_world =
      .ret demo_consts.SHELL_EXIT
        { demo_world with
          trace := demo_world.trace ++ [.enter (plain "exit").verb.string] } ∧
    (∀ b w2, parse_command demo_consts demo_os cmd_true 0 none
        { demo_world with
          trace := demo_world.trace ++ [.enter (plain "exit").verb.string] } =
          .ret b w2 →
      ∃ r, parse_command demo_consts demo_os
        (.node .OP_SEQUENTIAL (.leaf (plain "exit")) cmd_true) 0 none demo_world =
        .ret r w2) ∧
    (∀ b w2 c w3, parse_command demo_consts demo_os cmd_true 0 none
        { demo_world with
          trace := demo_world.trace ++ [.enter (plain "exit").verb.string] } =
          .ret b w2 →
      parse_command demo_consts demo_os cmd_false 0 none w2 = .ret c w3 →
      ∃ r, parse_command demo_consts demo_os
        (.node .OP_SEQUENTIAL (.node .OP_SEQUENTIAL (.leaf (plain "exit")) cmd_true)
          cmd_false) 0 none demo_world =
        .ret r w3)) :=
  ⟨by decide,
   exit_leaf_in_sequence demo_consts demo_os (plain "exit") cmd_true cmd_false 0 none
     demo_world (by decide)⟩

/-- C7 (code as it is): the leaf `exit=5` (verb fragments `exit`, `=`, `5`) is in
assignment form, yet evaluated through parse_command in `demo_os` from `demo_world`
it returns the sentinel -100 rather than 0 and leaves the environment as it was: no
variable `exit` is bound. The leaf `cd=a=b`, whose name coincides with the built-in
`cd`, is handled as the claim says: it returns 0 and binds `cd` to `a=b`, with no
`chdir` and no process. -/
theorem assignment_to_exit_is_exit :
    is_assignment { plain "exit" with verb := verb_exit_eq_5 } = true ∧
    parse_command demo_consts demo_os (.leaf { plain "exit" with verb := verb_exit_eq_5 })
        0 none demo_world =
      .ret (-100) { demo_world with trace := [.enter "exit"] } ∧
    getenv demo_world.env "exit" = none ∧
    is_assignment { plain "cd" with verb := verb_cd_eq } = true ∧
    parse_command demo_consts demo_os (.leaf { plain "cd" with verb := verb_cd_eq })
        0 none demo_world =
      .ret 0 { demo_world with
        env := [("cd", "a=b"), ("HOME", "/root"), ("A", "log")],
        trace := [.enter "cd"] } := by
  decide

/-- The resolved string of a verb whose first fragment is the literal NAME and whose
continuation fragment is the literal equals sign: NAME, the sign, the rest. -/
theorem word_string_assignment (env : List (String × String)) (name : String)
    (rest nw1 nw2 : Option word_t) :
    word_string env (.mk name false (some (.mk "=" false rest nw1)) nw2) =
      name ++ ("=" ++ rest_string env rest) := by
  cases rest with
  | none => simp [word_string, rest_string]
  | some r => simp [word_string, rest_string]

/-- What parse_command does on a leaf in assignment form (the verb has a continuation
fragment `=`) whose NAME, the string of the first verb fragment, is not `exit` or
`quit` (and is a name `setenv` accepts: not empty, no equals sign), names `pwd` and
`cd` included: parse_command returns 0 and changes nothing but the environment (and
the ghost log entry of the leaf), so no built-in and no external program is
dispatched; afterwards NAME is bound to exactly the VALUE, everything after the first
equals sign of the concatenated word, any earlier binding being replaced; and when
the fragments NAME and `=` are literal, VALUE is the resolved rest of the word,
further equals signs included. -/
theorem assignment_leaf_binds (K : Consts) (os : OS) (s : simple_command_t)
    (level : Int) (father : Option command_t) (w : World)
    (hform : is_assignment s = true)
    (hexit : s.verb.string ≠ "exit") (hquit : s.verb.string ≠ "quit")
    (hne : s.verb.string ≠ "") (hnoeq : '=' ∉ s.verb.string.toList) :
    parse_command K os (.leaf s) level father w =
      .ret 0 { w with
        env := (s.verb.string, assigned_value w.env s.verb)
                 :: w.env.filter (fun p => p.1 ≠ s.verb.string),
        trace := w.trace ++ [.enter s.verb.string] } ∧
    getenv ((s.verb.string, assigned_value w.env s.verb)
        :: w.env.filter (fun p => p.1 ≠ s.verb.string)) s.verb.string =
      some (assigned_value w.env s.verb) ∧
    (∀ rest nw1 nw2,
      s.verb = .mk s.verb.string false (some (.mk "=" false rest nw1)) nw2 →
      assigned_value w.env s.verb = rest_string w.env rest) := by
  have hnoeq2 : '=' ∉ s.verb.string.data := hnoeq
  refine ⟨?_, ?_, ?_⟩
  · rw [parse_command]
    simp [hnoeq2, hexit, hquit, parse_simple, hform, bind_run, Sh.bind, log, get_word,
      setenv, hne, copy_after_eq_false, pure_run, EXIT_SUCCESS, assigned_value]
  · simp [getenv, List.lookup]
  · intro rest nw1 nw2 hv
    have hw : word_string w.env s.verb =
        s.verb.string ++ ("=" ++ rest_string w.env rest) := by
      conv_lhs => rw [hv]
      exact word_string_assignment w.env _ rest nw1 nw2
    have hd : (s.verb.string ++ ("=" ++ rest_string w.env rest)).toList =
        s.verb.string.data ++ '=' :: (rest_string w.env rest).data := by
      simp only [String.toList, String.data_append]
      rfl
    rw [assigned_value, hw, hd, after_first_eq_append _ _ hnoeq2]

/-- The lemma `assignment_leaf_binds` at the leaf `cd=a=b`: its hypotheses hold there
and the variable `cd` is bound to `a=b`. -/
theorem assignment_leaf_binds_at_cd :
    is_assignment { plain "cd" with verb := verb_cd_eq } = true ∧
    ({ plain "cd" with verb := verb_cd_eq } : simple_command_t).verb.string ≠ "exit" ∧
    ({ plain "cd" with verb := verb_cd_eq } : simple_command_t).verb.string ≠ "quit" ∧
    ({ plain "cd" with verb := verb_cd_eq } : simple_command_t).verb.string ≠ "" ∧
    '=' ∉ ({ plain "cd" with verb := verb_cd_eq } : simple_command_t).verb.string.toList ∧
    (parse_command demo_consts demo_os (.leaf { plain "cd" with verb := verb_cd_eq }) 0
        none demo_world =
      .ret 0 { demo_world with
        env := (verb_cd_eq.string, assigned_value demo_world.env verb_cd_eq)
                 :: demo_world.env.filter (fun p => p.1 ≠ verb_cd_eq.string),
        trace := demo_world.trace ++ [.enter verb_cd_eq.string] } ∧
    getenv ((verb_cd_eq.string, assigned_value demo_world.env verb_cd_eq)
        :: demo_world.env.filter (fun p => p.1 ≠ verb_cd_eq.string))
        verb_cd_eq.string =
      some (assigned_value demo_world.env verb_cd_eq) ∧
    (∀ rest nw1 nw2,
      verb_cd_eq = .mk verb_cd_eq.string false (some (.mk "=" false rest nw1)) nw2 →
      assigned_value demo_world.env verb_cd_eq = rest_string demo_world.env rest)) :=
  ⟨by decide, by decide, by decide, by decide, by decide,
   assignment_leaf_binds demo_consts demo_os { plain "cd" with verb := verb_cd_eq } 0
     none demo_world (by decide) (by decide) (by decide) (by decide) (by decide)⟩

/-- C8 (code as it is): in `demo_os` from `demo_world`, parse_simple on `cd` without
a parameter returns 0 (no `chdir` is attempted, the directory stays `/`), the very
status it returns for the successful `cd /tmp`, while the failing `cd /nonexistent`
returns 1. -/
theorem cd_without_parameter_returns_zero :
    scmd_cd_none.params = none ∧
    parse_simple demo_consts demo_os scmd_cd_none 0 none demo_world =
      .ret 0 { demo_world with
        fds := [some (.inherited 0), some (.inherited 1), some (.inherited 2), none,
          none] } ∧
    parse_simple demo_consts demo_os scmd_cd_bad 0 none demo_world =
      .ret 1 { demo_world with
        fds := [some (.inherited 0), some (.inherited 1), some (.inherited 2), none,
          none],
        trace := [.chdir "/nonexistent" false] } ∧
    parse_simple demo_consts demo_os scmd_cd_tmp 0 none demo_world =
      .ret 0 { demo_world with
        fds := [some (.inherited 0), some (.inherited 1), some (.inherited 2), none,
          none],
        cwd := "/tmp",
        trace := [.chdir "/tmp" true] } :=
  ⟨rfl, by decide⟩

/-- C9 (code as it is): in `demo_os` from `demo_world` the working directory `/` can
be read, and parse_simple on `pwd` without redirection, and on `pwd > o 2> e`,
returns 0 with an empty log: no file is opened and nothing at all is written, the
standard output included; only `pwd > o` writes the directory and a newline, to the
file `o`. -/
theorem pwd_unredirected_writes_nothing :
    getcwd demo_os demo_world = .ret (some "/") demo_world ∧
    parse_simple demo_consts demo_os scmd_pwd 0 none demo_world =
      .ret 0 { demo_world with
        fds := [some (.inherited 0), some (.inherited 1), some (.inherited 2), none,
          none],
        trace := [] } ∧
    parse_simple demo_consts demo_os scmd_pwd_both 0 none demo_world =
      .ret 0 { demo_world with
        fds := [some (.inherited 0), some (.inherited 1), some (.inherited 2), none,
          none],
        trace := [] } ∧
    parse_simple demo_consts demo_os scmd_pwd_out 0 none demo_world =
      .ret 0 { demo_world with
        fds := [some (.inherited 0), some (.inherited 1), some (.inherited 2), none,
          none, none],
        trace := [.open "o" .TRUNC,
          .write (some (.opened "o" .TRUNC 0)) "/\n"] } := by
  decide

/-- C10 (code as it is): in `demo_os` from `demo_world` (where `A` is `log`), for
`true > $A.out 2> $A.err` the resolved targets `log.out` and `log.err` differ, yet
the child opens only `log.out`, once, and runs the program with standard output and
standard error both on it (`log.err` is never opened); and for the targets `ab`
(fragments `a`, `b`) and `ab` (one fragment), whose resolved strings are identical,
the child opens `ab` twice, standard output and standard error being two separate
truncating opens. -/
theorem redirect_targets_compared_by_first_fragment :
    word_string demo_world.env (.mk "A" true (some (lit ".out")) none) = "log.out" ∧
    word_string demo_world.env (.mk "A" true (some (lit ".err")) none) = "log.err" ∧
    parse_simple demo_consts demo_os scmd_two_targets 0 none demo_world =
      .ret 0 { demo_world with
        children := [.exited 0],
        trace := [.fork, .open "log.out" .TRUNC,
          .exec "true" ["true"] (some (.inherited 0))
            (some (.opened "log.out" .TRUNC 1)) (some (.opened "log.out" .TRUNC 1))] } ∧
    word_string demo_world.env (.mk "a" false (some (lit "b")) none) =
      word_string demo_world.env (lit "ab") ∧
    parse_simple demo_consts demo_os scmd_same_target 0 none demo_world =
      .ret 0 { demo_world with
        children := [.exited 0],
        trace := [.fork, .open "ab" .TRUNC, .open "ab" .TRUNC,
          .exec "true" ["true"] (some (.inherited 0))
            (some (.opened "ab" .TRUNC 1)) (some (.opened "ab" .TRUNC 2))] } := by
  decide

end MiniShell
